import Mathlib

/-!
Shallow embedding of the core of the `piss` scraper repository, covering the
cross-source reconciliation engine (`src/scraper/reconcile/wiki_dip.py`), the
snippet extractor (`src/scraper/evidence/snippets.py`) and the evidence index
(`src/scraper/cache/evidence_index.py`), together with theorems settling the
frozen specification claims.

Modelling conventions:
* Python `str` is `String` (a list of unicode code points, as in CPython).
* Python `float` scores are exact hundredths carried as `ℤ`: every numeric
  constant of the reconciliation ruleset is a two-decimal literal, so the
  integer `n` stands for the float `n / 100` (50 ↦ 0.50, 95 ↦ 0.95, 100 ↦
  1.0), and sums/comparisons of these values are exact.
* Python `None` / optional fields are `Option`.
* Library primitives (`unicodedata.normalize("NFKD", ·)`, `str.lower`,
  regular expressions `\s`, `\w`, `\[\d+\]`, `uuid.uuid5`) are modelled
  explicitly at character level, covering the alphabet this repository
  processes (ASCII plus the German letters ä ö ü ß and their capitals).
* Impure inputs (the override YAML file, the index JSONL file, the wall
  clock) are passed as explicit parameters.
-/

/-- Models Python's `\s` character class (the whitespace characters occurring
in this repository's data). -/
def pyIsSpace (c : Char) : Bool :=
  c = ' ' ∨ c = '\t' ∨ c = '\n' ∨ c = '\r' ∨ c = '\x0b' ∨ c = '\x0c'

/-- Models Python `str.strip()` on a list of code points. -/
def pyStrip (cs : List Char) : List Char :=
  ((cs.dropWhile pyIsSpace).reverse.dropWhile pyIsSpace).reverse

/-- State-machine core of `re.sub(r"\s+", " ", ·)`: the flag records whether
the previous character was whitespace (so a run is replaced by one space). -/
def collapseWsAux : Bool → List Char → List Char
  | _, [] => []
  | prevSpace, c :: cs =>
    if pyIsSpace c then
      if prevSpace then collapseWsAux true cs
      else ' ' :: collapseWsAux true cs
    else c :: collapseWsAux false cs

/-- Models `re.sub(r"\s+", " ", ·)`: each maximal whitespace run becomes one
space. -/
def collapseWs (cs : List Char) : List Char :=
  collapseWsAux false cs

/-- Models Python `str.lower()` for the alphabet this repository processes. -/
def pyLowerChar (c : Char) : Char :=
  if c = 'Ä' then 'ä'
  else if c = 'Ö' then 'ö'
  else if c = 'Ü' then 'ü'
  else c.toLower

/-- The combining-diaeresis code point U+0308 produced by NFKD decomposition
of ä/ö/ü. -/
def combiningDiaeresis : Char := Char.ofNat 776

/-- Models `unicodedata.normalize("NFKD", ·)` per character for the alphabet
this repository processes: the lowered umlaut vowels decompose into the base
letter plus U+0308; ß and ASCII characters are unchanged. -/
def nfkdChar (c : Char) : List Char :=
  if c = 'ä' then ['a', combiningDiaeresis]
  else if c = 'ö' then ['o', combiningDiaeresis]
  else if c = 'ü' then ['u', combiningDiaeresis]
  else [c]

/-- Models Python's `\w` character class for the alphabet this repository
processes (ASCII alphanumerics, underscore, and ß; combining marks are not
word characters). -/
def pyIsWordChar (c : Char) : Bool :=
  c.isAlphanum || c = '_' || c = 'ß'

/-- Translation of `normalize_name` (`wiki_dip.py`): lowercase, strip,
collapse whitespace, NFKD-decompose, then drop every character matching
`[^\w\s]`. -/
def normalize_name (name : String) : String :=
  if name = "" then ""
  else
    let s := pyStrip (name.data.map pyLowerChar)
    let s := collapseWs s
    let s := s.flatMap nfkdChar
    let s := s.filter (fun c => pyIsWordChar c || pyIsSpace c)
    ⟨s⟩

/-- Character table of `normalize_umlauts` (`wiki_dip.py`); each replaced key
is a single character, so the sequential `str.replace` calls act pointwise. -/
def umlautFold (c : Char) : List Char :=
  if c = 'ä' then ['a', 'e']
  else if c = 'ö' then ['o', 'e']
  else if c = 'ü' then ['u', 'e']
  else if c = 'ß' then ['s', 's']
  else if c = 'Ä' then ['A', 'e']
  else if c = 'Ö' then ['O', 'e']
  else if c = 'Ü' then ['U', 'e']
  else [c]

/-- Translation of `normalize_umlauts` (`wiki_dip.py`). -/
def normalize_umlauts (text : String) : String :=
  ⟨text.data.flatMap umlautFold⟩

/-- Word accumulator for Python `str.split()` (split on whitespace runs,
dropping empty fields); `cur` holds the current word reversed. -/
def pyWordsAux (cur : List Char) : List Char → List (List Char)
  | [] => if cur = [] then [] else [cur.reverse]
  | c :: cs =>
    if pyIsSpace c then
      if cur = [] then pyWordsAux [] cs
      else cur.reverse :: pyWordsAux [] cs
    else pyWordsAux (c :: cur) cs

/-- Models Python `str.split()` with no argument. -/
def pySplit (s : String) : List String :=
  (pyWordsAux [] s.data).map (⟨·⟩)

/-- Translation of `extract_name_parts` (`wiki_dip.py`): first token is the
given name, last token the family name, interior tokens the name suffix. -/
def extract_name_parts (name : String) : String × String × Option String :=
  match pySplit name with
  | [] => ("", "", none)
  | [p] => (p, "", none)
  | p :: rest =>
    (p, rest.getLastD "",
      if rest.length ≥ 2 then some (String.intercalate " " rest.dropLast) else none)

/-- Normalized Wikipedia-side person view (`models/domain.py`,
`WikipediaPersonRecord`); only the fields read by the reconciliation engine
are carried. -/
structure WikipediaPersonRecord where
  id : String
  wikipedia_title : String
  page_id : Nat
  name : String
  evidence_ids : List String
deriving DecidableEq

/-- Normalized DIP-side person view (`models/domain.py`, `DipPersonRecord`);
only the fields read by the reconciliation engine are carried. -/
structure DipPersonRecord where
  id : String
  dip_person_id : Nat
  vorname : Option String
  nachname : Option String
  namenszusatz : Option String
  evidence_ids : List String
deriving DecidableEq

/-- A merged identity (`models/domain.py`, `CanonicalPerson`); the
`identifiers` dict is carried as an association list in insertion order. -/
structure CanonicalPerson where
  id : String
  display_name : String
  identifiers : List (String × String)
  created_at : String
  updated_at : String
  evidence_ids : List String
deriving DecidableEq

/-- One reconciliation decision (`models/domain.py`, `PersonLinkAssertion`). -/
structure PersonLinkAssertion where
  id : String
  wikipedia_person_ref : String
  dip_person_ref : String
  ruleset_version : String
  method : String
  score : ℤ
  status : String
  reason : String
  evidence_ids : List String
  created_at : String
deriving DecidableEq

/-- One entry of the link-override YAML mapping (`config/link_overrides.yaml`
as consumed by `reconcile_wiki_dip`); absent keys are `none`. -/
structure LinkOverride where
  dip_person_id : Option Nat
  status : Option String
  reason : Option String
deriving DecidableEq

/-- Python truthiness of the `dip_person_id` field of an override
(`override.get("dip_person_id")`): present and nonzero. -/
def LinkOverride.dipIdTruthy (o : LinkOverride) : Bool :=
  match o.dip_person_id with
  | some n => n ≠ 0
  | none => false

/-- Translation of `score_match` (`wiki_dip.py`): additive name-part weights,
capped at 1.0 once the sum reaches the 0.95 ceiling. Scores are exact
hundredths: `50` is the source's `0.5`, `48` is `0.48`, `45` is `0.45`,
`43` is `0.43`, `5` is `0.05`, `95` is `0.95`, `100` is `1.0`. -/
def score_match (wiki_record : WikipediaPersonRecord) (dip_record : DipPersonRecord) : ℤ :=
  let wiki_name_norm := normalize_name wiki_record.name
  let parts := extract_name_parts wiki_name_norm
  let wiki_vorname := parts.1
  let wiki_nachname := parts.2.1
  let wiki_namenszusatz := parts.2.2
  let dip_vorname_norm := normalize_name (dip_record.vorname.getD "")
  let dip_nachname_norm := normalize_name (dip_record.nachname.getD "")
  let dip_namenszusatz_norm := normalize_name (dip_record.namenszusatz.getD "")
  let score : ℤ := 0
  let score :=
    if wiki_nachname ≠ "" ∧ dip_nachname_norm ≠ "" then
      if wiki_nachname = dip_nachname_norm then score + 50
      else if normalize_umlauts wiki_nachname = normalize_umlauts dip_nachname_norm then
        score + 48
      else score
    else score
  let score :=
    if wiki_vorname ≠ "" ∧ dip_vorname_norm ≠ "" then
      if wiki_vorname = dip_vorname_norm then score + 45
      else if normalize_umlauts wiki_vorname = normalize_umlauts dip_vorname_norm then
        score + 43
      else score
    else score
  let score :=
    if (wiki_namenszusatz.getD "") ≠ "" ∧ dip_namenszusatz_norm ≠ "" then
      if wiki_namenszusatz.getD "" = dip_namenszusatz_norm then score + 5
      else score
    else score
  if score ≥ 95 then min 100 score else score

/-- The fixed `uuid.uuid5` namespace `NAMESPACE_PERSON` (`utils/ids.py`). -/
def NAMESPACE_PERSON : String := "6ba7b810-9dad-11d1-80b4-00c04fd430c8"

/-- Models `uuid.uuid5(namespace, key)`: a fixed deterministic fingerprint of
the pair. The source determines identifiers only up to this function, so the
id is modelled by the exact pair being fingerprinted; equalities proved or
refuted on the model are exactly the equalities the source's key derivation
forces. -/
def uuid5 (ns key : String) : String :=
  ns ++ "|" ++ key

/-- The ruleset version constant `RULESET_VERSION` (`wiki_dip.py`). -/
def RULESET_VERSION : String := "ruleset_v1"

/-- Translation of `generate_canonical_id` (`wiki_dip.py`); `now` stands for
`utc_now_iso()` in the unreachable both-absent branch. Truthiness of the
arguments follows Python (`""` and `0` are falsy). -/
def generate_canonical_id (wikipedia_title : Option String) (dip_person_id : Option Nat)
    (now : String) : String :=
  if (wikipedia_title.getD "") ≠ "" then
    uuid5 NAMESPACE_PERSON ("wikipedia:" ++ ⟨(wikipedia_title.getD "").data.map pyLowerChar⟩)
  else if (dip_person_id.getD 0) ≠ 0 then
    uuid5 NAMESPACE_PERSON ("dip:" ++ toString (dip_person_id.getD 0))
  else
    uuid5 NAMESPACE_PERSON ("unknown:" ++ now)

/-- Translation of `generate_link_assertion_id` (`wiki_dip.py`). -/
def generate_link_assertion_id (wikipedia_ref dip_ref ruleset_version : String) : String :=
  uuid5 NAMESPACE_PERSON (wikipedia_ref ++ "|" ++ dip_ref ++ "|" ++ ruleset_version)

/-- Two-digit zero-padded rendering of a hundredths remainder. -/
def pad2 (n : ℤ) : String :=
  if n < 10 then "0" ++ toString n else toString n

/-- Models the Python format specifier `f"{x:.2f}"` for the non-negative
exact-hundredth score values produced by the ruleset: `fmt2 95 = "0.95"`,
`fmt2 100 = "1.00"`, `fmt2 0 = "0.00"`. -/
def fmt2 (c : ℤ) : String :=
  toString (c / 100) ++ "." ++ pad2 (c % 100)

/-- Insertion step of the stable descending sort below: an element is placed
before the first strictly smaller score, after any equal score already
present. -/
def insertByScoreDesc (x : DipPersonRecord × ℤ) :
    List (DipPersonRecord × ℤ) → List (DipPersonRecord × ℤ)
  | [] => [x]
  | y :: ys => if x.2 ≥ y.2 then x :: y :: ys else y :: insertByScoreDesc x ys

/-- Models `candidates.sort(key=lambda x: x[1], reverse=True)`: a stable sort
by descending score (Python's sort is stable, and `reverse=True` keeps equal
keys in original order). -/
def sortByScoreDesc : List (DipPersonRecord × ℤ) → List (DipPersonRecord × ℤ)
  | [] => []
  | x :: xs => insertByScoreDesc x (sortByScoreDesc xs)

/-- The candidate loop of `reconcile_wiki_dip`: score every DIP record and
keep those with score ≥ 0.5 (in hundredths, ≥ 50), in input order. -/
def candidate_scores (dip_records : List DipPersonRecord)
    (wiki_record : WikipediaPersonRecord) : List (DipPersonRecord × ℤ) :=
  dip_records.filterMap (fun dip_record =>
    let score := score_match wiki_record dip_record
    if score ≥ 50 then some (dip_record, score) else none)

/-- The scored-and-sorted candidate list the ruleset branch of
`reconcile_wiki_dip` works on. -/
def sorted_candidates (dip_records : List DipPersonRecord)
    (wiki_record : WikipediaPersonRecord) : List (DipPersonRecord × ℤ) :=
  sortByScoreDesc (candidate_scores dip_records wiki_record)

/-- The `CanonicalPerson` constructed by `reconcile_wiki_dip` (the identical
literal appears in both the override branch and the accepted ruleset
branch). -/
def mkCanonicalPerson (wiki_record : WikipediaPersonRecord) (dip_record : DipPersonRecord)
    (now : String) : CanonicalPerson :=
  { id := generate_canonical_id (some wiki_record.wikipedia_title)
      (some dip_record.dip_person_id) now
    display_name := wiki_record.name
    identifiers := [("wikipedia_title", wiki_record.wikipedia_title),
      ("wikipedia_page_id", toString wiki_record.page_id),
      ("dip_person_id", toString dip_record.dip_person_id)]
    created_at := now
    updated_at := now
    evidence_ids := wiki_record.evidence_ids ++ dip_record.evidence_ids }

/-- The ruleset branch of `reconcile_wiki_dip` for one Wikipedia record
(source lines 173-252): no candidate ≥ 0.5 yields one pending assertion with
`dip_person_ref = "none"`; a top candidate with score ≥ 0.95 and margin
≥ 0.05 over the runner-up yields one accepted assertion plus one canonical
person; otherwise pending assertions for the top three candidates. -/
def ruleset_branch (dip_records : List DipPersonRecord) (now : String)
    (wiki_record : WikipediaPersonRecord) :
    List CanonicalPerson × List PersonLinkAssertion :=
  match sorted_candidates dip_records wiki_record with
  | [] =>
    ([], [{ id := generate_link_assertion_id wiki_record.id "none" RULESET_VERSION
            wikipedia_person_ref := wiki_record.id
            dip_person_ref := "none"
            ruleset_version := RULESET_VERSION
            method := "ruleset"
            score := 0
            status := "pending"
            reason := "No candidate found with score >= 0.5"
            evidence_ids := wiki_record.evidence_ids
            created_at := now }])
  | (best_dip, best_score) :: rest =>
    let second_best_score := ((rest.head?.map Prod.snd).getD 0)
    if best_score ≥ 95 ∧ best_score - second_best_score ≥ 5 then
      ([mkCanonicalPerson wiki_record best_dip now],
       [{ id := generate_link_assertion_id wiki_record.id
            (toString best_dip.dip_person_id) RULESET_VERSION
          wikipedia_person_ref := wiki_record.id
          dip_person_ref := toString best_dip.dip_person_id
          ruleset_version := RULESET_VERSION
          method := "ruleset"
          score := best_score
          status := "accepted"
          reason := "Unique match with score " ++ fmt2 best_score
          evidence_ids := wiki_record.evidence_ids ++ best_dip.evidence_ids
          created_at := now }])
    else
      ([], (((best_dip, best_score) :: rest).take 3).map (fun cand =>
        { id := generate_link_assertion_id wiki_record.id
            (toString cand.1.dip_person_id) RULESET_VERSION
          wikipedia_person_ref := wiki_record.id
          dip_person_ref := toString cand.1.dip_person_id
          ruleset_version := RULESET_VERSION
          method := "ruleset"
          score := cand.2
          status := "pending"
          reason := "Ambiguous match: best=" ++ fmt2 best_score ++
            ", second=" ++ fmt2 second_best_score
          evidence_ids := wiki_record.evidence_ids ++ cand.1.evidence_ids
          created_at := now }))

/-- The override branch of `reconcile_wiki_dip` for one Wikipedia record
(source lines 133-171), entered when the looked-up override has a truthy
`dip_person_id`: if no DIP record carries that id, nothing is emitted (the
loop just continues); otherwise one override assertion is emitted, with a
canonical person exactly when its status is accepted. -/
def override_branch (o : LinkOverride) (dip_records : List DipPersonRecord)
    (now : String) (wiki_record : WikipediaPersonRecord) :
    List CanonicalPerson × List PersonLinkAssertion :=
  let dip_id := toString (o.dip_person_id.getD 0)
  match dip_records.find? (fun d => toString d.dip_person_id == dip_id) with
  | none => ([], [])
  | some dip_record =>
    let status := if o.status ≠ some "rejected" then "accepted" else "rejected"
    let assertion : PersonLinkAssertion :=
      { id := generate_link_assertion_id wiki_record.id dip_id RULESET_VERSION
        wikipedia_person_ref := wiki_record.id
        dip_person_ref := dip_id
        ruleset_version := RULESET_VERSION
        method := "override"
        score := 100
        status := status
        reason := o.reason.getD "Manual override"
        evidence_ids := wiki_record.evidence_ids ++ dip_record.evidence_ids
        created_at := now }
    if assertion.status = "accepted" then
      ([mkCanonicalPerson wiki_record dip_record now], [assertion])
    else
      ([], [assertion])

/-- Dictionary lookup `overrides.get(override_key)` on the override mapping
(association list with the file's unique keys). -/
def lookupOverride (overrides : List (String × LinkOverride)) (key : String) :
    Option LinkOverride :=
  (overrides.find? (fun kv => kv.1 = key)).map Prod.snd

/-- One iteration of the `for wiki_record in wiki_records` loop of
`reconcile_wiki_dip`: the override branch is taken exactly when a lookup in
the (possibly disabled) override mapping succeeds with a truthy
`dip_person_id`; every other record flows to the ruleset branch. -/
def reconcile_record (overrides : List (String × LinkOverride))
    (dip_records : List DipPersonRecord) (use_overrides : Bool) (now : String)
    (wiki_record : WikipediaPersonRecord) :
    List CanonicalPerson × List PersonLinkAssertion :=
  let ov := if use_overrides then overrides else []
  match lookupOverride ov wiki_record.wikipedia_title with
  | some o =>
    if o.dipIdTruthy then override_branch o dip_records now wiki_record
    else ruleset_branch dip_records now wiki_record
  | none => ruleset_branch dip_records now wiki_record

/-- Translation of `reconcile_wiki_dip` (`wiki_dip.py`). The override YAML
file read by `load_link_overrides` is passed as the `overrides` mapping, and
`utc_now_iso()` as `now`; the loop's two growing output lists are the
per-record contributions concatenated in input order. -/
def reconcile_wiki_dip (overrides : List (String × LinkOverride))
    (wiki_records : List WikipediaPersonRecord) (dip_records : List DipPersonRecord)
    (use_overrides : Bool) (now : String) :
    List CanonicalPerson × List PersonLinkAssertion :=
  match wiki_records with
  | [] => ([], [])
  | w :: ws =>
    let head := reconcile_record overrides dip_records use_overrides now w
    let tail := reconcile_wiki_dip overrides ws dip_records use_overrides now
    (head.1 ++ tail.1, head.2 ++ tail.2)

/-- The override guard of the per-record loop: an override is applied exactly
when lookup succeeds (with overrides enabled) and its `dip_person_id` is
truthy. -/
def overrideApplies (overrides : List (String × LinkOverride)) (use_overrides : Bool)
    (wiki_record : WikipediaPersonRecord) : Bool :=
  match lookupOverride (if use_overrides then overrides else []) wiki_record.wikipedia_title with
  | some o => o.dipIdTruthy
  | none => false

/-- The one situation in which the per-record loop of `reconcile_wiki_dip`
emits nothing: an applied override (truthy `dip_person_id`) whose target id
is absent from the DIP record set. -/
def overrideTargetMissing (overrides : List (String × LinkOverride))
    (dip_records : List DipPersonRecord) (use_overrides : Bool)
    (wiki_record : WikipediaPersonRecord) : Bool :=
  match lookupOverride (if use_overrides then overrides else []) wiki_record.wikipedia_title with
  | some o => o.dipIdTruthy &&
      (dip_records.find?
        (fun d => toString d.dip_person_id == toString (o.dip_person_id.getD 0))).isNone
  | none => false

/-- State machine of `re.sub(r'\[\d+\]', '', ·)`: the state holds the digits
seen since an unclosed `[` (reversed), matching the regex's leftmost
non-overlapping scan; an unmatched partial footnote is flushed verbatim. -/
def removeFootnotesAux : Option (List Char) → List Char → List Char
  | none, [] => []
  | some ds, [] => '[' :: ds.reverse
  | none, c :: cs =>
    if c = '[' then removeFootnotesAux (some []) cs
    else c :: removeFootnotesAux none cs
  | some ds, c :: cs =>
    if c.isDigit then removeFootnotesAux (some (c :: ds)) cs
    else if c = ']' ∧ ds ≠ [] then removeFootnotesAux none cs
    else if c = '[' then ('[' :: ds.reverse) ++ removeFootnotesAux (some []) cs
    else ('[' :: ds.reverse) ++ c :: removeFootnotesAux none cs

/-- Models `re.sub(r'\[\d+\]', '', ·)`: delete every bracketed digit run. -/
def removeFootnotes (cs : List Char) : List Char :=
  removeFootnotesAux none cs

/-- Translation of `clean_snippet_text` (`snippets.py`): remove footnote
markers, collapse whitespace runs, strip. -/
def clean_snippet_text (text : String) : String :=
  if text = "" then ""
  else ⟨pyStrip (collapseWs (removeFootnotes text.data))⟩

/-- The characters before the last `' '` of the list, or `none` when no space
occurs. -/
def beforeLastSpace : List Char → Option (List Char)
  | [] => none
  | c :: cs =>
    match beforeLastSpace cs with
    | some r => some (c :: r)
    | none => if c = ' ' then some [] else none

/-- Models Python `s.rsplit(' ', 1)[0]`: everything before the last space, or
the whole string when it contains none. -/
def dropLastWord (cs : List Char) : List Char :=
  (beforeLastSpace cs).getD cs

/-- The truncation step shared verbatim by `extract_lead_paragraph` and
`extract_table_row_snippet` (`snippets.py`): when the cleaned text exceeds
`max_len`, keep `cleaned[:max_len].rsplit(' ', 1)[0]` and append `"..."`. -/
def truncate_snippet (cleaned : String) (max_len : Nat) : String :=
  if cleaned.length > max_len then
    (⟨dropLastWord (cleaned.data.take max_len)⟩ : String) ++ "..."
  else cleaned

/-- One `<table>` element as the snippet extractor sees it: whether its class
list contains "wikitable", and its `<tr>` rows, each the list of its
`<td>`/`<th>` cell texts (`cell.get_text()`), in document order. -/
structure HtmlTable where
  wikitable : Bool
  rows : List (List String)
deriving DecidableEq

/-- A parsed HTML document as the snippet extractor observes it through
BeautifulSoup: the paragraph texts (`p.get_text()`) inside the
`div.mw-parser-output` region when that div exists, and the document's
tables. A `none` document models the empty/falsy `html` string. -/
structure HtmlDoc where
  parser_output : Option (List String)
  tables : List HtmlTable
deriving DecidableEq

/-- Translation of `extract_lead_paragraph` (`snippets.py`): first paragraph
whose cleaned text has length ≥ 80, else the first with non-empty cleaned
text, truncated to `max_len`. -/
def extract_lead_paragraph (html : Option HtmlDoc) (max_len : Nat) : Option String :=
  match html with
  | none => none
  | some doc =>
    match doc.parser_output with
    | none => none
    | some ps =>
      match ps.find? (fun p => (clean_snippet_text p).length ≥ 80) with
      | some p => some (truncate_snippet (clean_snippet_text p) max_len)
      | none =>
        match ps.find? (fun p => clean_snippet_text p ≠ "") with
        | some p => some (truncate_snippet (clean_snippet_text p) max_len)
        | none => none

/-- The typed snippet-reference mapping (`snippets.py` docstring); only the
keys the extractor reads are carried, each optional as in a Python dict. The
coordinates are the non-negative row/table indices this system produces. -/
structure SnippetDict where
  type : Option String
  table_index : Option Nat
  row_index : Option Nat
deriving DecidableEq

/-- Python truthiness of the reference dict: empty (falsy) iff no key is
present. -/
def SnippetDict.isEmptyDict (d : SnippetDict) : Bool :=
  d.type = none ∧ d.table_index = none ∧ d.row_index = none

/-- The dynamically typed `snippet_ref` argument of `extract_snippet`: either
a dict or a legacy colon-delimited string. -/
inductive SnippetRef where
  | dict (d : SnippetDict)
  | str (s : String)
deriving DecidableEq

/-- Python truthiness of the optional `snippet_ref` argument (`None`, empty
dict and empty string are falsy). -/
def refTruthy : Option SnippetRef → Bool
  | none => false
  | some (SnippetRef.dict d) => ¬ d.isEmptyDict
  | some (SnippetRef.str s) => s ≠ ""

/-- Translation of `extract_table_row_snippet` (`snippets.py`): select the
`table_index`-th wikitable (all tables when none has the class), skip the
header row, select the `row_index`-th data row, join its stripped non-empty
cell texts with `" | "`, clean and truncate. Out-of-range indices and empty
rows yield `none`. -/
def extract_table_row_snippet (html : Option HtmlDoc) (snippet_ref : SnippetDict)
    (max_len : Nat) : Option String :=
  match html with
  | none => none
  | some doc =>
    if snippet_ref.isEmptyDict then none
    else if snippet_ref.type ≠ some "table_row" then none
    else
      let table_index := snippet_ref.table_index.getD 0
      let row_index := snippet_ref.row_index.getD 0
      let wikitables := doc.tables.filter (fun t => t.wikitable)
      let all_tables := if wikitables.isEmpty then doc.tables else wikitables
      match all_tables.get? table_index with
      | none => none
      | some table =>
        let rows := table.rows
        let data_rows := if rows.length > 1 then rows.drop 1 else rows
        match data_rows.get? row_index with
        | none => none
        | some row =>
          let cell_texts := (row.map (fun cell => (⟨pyStrip cell.data⟩ : String))).filter
            (fun t => t ≠ "")
          if cell_texts.isEmpty then none
          else
            let cleaned := clean_snippet_text (String.intercalate " | " cell_texts)
            if cleaned ≠ "" then some (truncate_snippet cleaned max_len) else none

/-- Models Python `str.split(":")` (keeping empty fields). -/
def splitOnChar (sep : Char) : List Char → List (List Char)
  | [] => [[]]
  | c :: cs =>
    match splitOnChar sep cs with
    | [] => [[]]
    | w :: ws => if c = sep then [] :: w :: ws else (c :: w) :: ws

/-- Models Python `int(·)` for the decimal coordinate strings occurring in
legacy snippet references; a parse failure (the `ValueError` branch) is
`none`. -/
def pyIntDigits (cs : List Char) : Option Nat :=
  if cs ≠ [] ∧ cs.all Char.isDigit then
    some (cs.foldl (fun n c => n * 10 + (c.toNat - 48)) 0)
  else none

/-- The `try` block of the legacy branch of `extract_snippet`: split the
string on `":"` and build the typed dict from the parsed coordinates
(defaulting each missing part to 0); `none` models the swallowed
`ValueError`/`IndexError`. -/
def legacyRefDict (s : String) : Option SnippetDict :=
  let parts := splitOnChar ':' s.data
  let ti := if parts.length > 1 then pyIntDigits (parts.getD 1 []) else some 0
  let ri := if parts.length > 2 then pyIntDigits (parts.getD 2 []) else some 0
  match ti, ri with
  | some a, some b =>
    some { type := some "table_row", table_index := some a, row_index := some b }
  | _, _ => none

/-- Models Python `str.startswith`. -/
def pyStartsWith (s pre : String) : Bool :=
  pre.data.isPrefixOf s.data

/-- Translation of `extract_snippet` (`snippets.py`): a truthy table-row
reference (typed dict or legacy string) is attempted first; the
lead-paragraph fallback runs only when `prefer = "lead_paragraph"` or when
`prefer = "table_row"` and no (truthy) reference was supplied. Returns the
snippet and the strategy that produced it. -/
def extract_snippet (html : Option HtmlDoc) (snippet_ref : Option SnippetRef)
    (max_len : Nat) (prefer : String) : Option String × Option String :=
  match html with
  | none => (none, none)
  | some _ =>
    let attempted : Option String :=
      if refTruthy snippet_ref then
        match snippet_ref with
        | some (SnippetRef.dict d) =>
          if d.type = some "table_row" then extract_table_row_snippet html d max_len
          else none
        | some (SnippetRef.str s) =>
          if pyStartsWith s "table_row:" then
            match legacyRefDict s with
            | some d => extract_table_row_snippet html d max_len
            | none => none
          else none
        | none => none
      else none
    let fallback : Option String × Option String :=
      if prefer = "lead_paragraph" ∨ (prefer = "table_row" ∧ ¬ refTruthy snippet_ref) then
        match extract_lead_paragraph html max_len with
        | some snippet => if snippet ≠ "" then (some snippet, some "lead_paragraph")
            else (none, none)
        | none => (none, none)
      else (none, none)
    match attempted with
    | some snippet =>
      if snippet ≠ "" then (some snippet, some "table_row") else fallback
    | none => fallback

/-- One evidence-index record (`cache/evidence_index.py`), the JSON object
written per line; optional JSON fields are `Option`, and `params` is carried
as an association list. An entry parsed from a legacy line may lack the
`evidence_id` field. -/
structure IndexEntry where
  evidence_id : Option String
  source_kind : String
  cache_metadata_path : String
  cache_raw_path : String
  page_title : Option String
  page_id : Option Nat
  revision_id : Option Nat
  sha256 : Option String
  endpoint : Option String
  params : Option (List (String × String))
deriving DecidableEq

/-- One physical line of `evidence_index.jsonl`: either a JSON object that
parses to an entry, or a malformed/blank line (the `json.JSONDecodeError`
and empty-line `continue` cases). -/
inductive IndexLine where
  | malformed (raw : String)
  | entry (e : IndexEntry)
deriving DecidableEq

/-- Python-dict assignment `d[k] = v` on an insertion-ordered association
list: replace in place when the key exists, append otherwise. -/
def dictUpsert (k : Option String) (v : IndexEntry) :
    List (Option String × IndexEntry) → List (Option String × IndexEntry)
  | [] => [(k, v)]
  | (k', v') :: rest =>
    if k' = k then (k, v) :: rest else (k', v') :: dictUpsert k v rest

/-- Python-dict lookup `d[k]` / `d.get(k)`. -/
def dictLookup (k : Option String) :
    List (Option String × IndexEntry) → Option IndexEntry
  | [] => none
  | (k', v) :: rest => if k' = k then some v else dictLookup k rest

/-- The read loop of `update_evidence_index`: walk the lines in order,
skipping blank and malformed lines, keying each parsed entry by its
`evidence_id` field in the insertion-ordered dict `acc`. -/
def loadIndexAux (acc : List (Option String × IndexEntry)) :
    List IndexLine → List (Option String × IndexEntry)
  | [] => acc
  | IndexLine.malformed _ :: rest => loadIndexAux acc rest
  | IndexLine.entry e :: rest => loadIndexAux (dictUpsert e.evidence_id e acc) rest

/-- The `existing` dict built by `update_evidence_index` from the index
file. -/
def loadIndex (lines : List IndexLine) : List (Option String × IndexEntry) :=
  loadIndexAux [] lines

/-- The `entry` dict literal of `update_evidence_index`. -/
def mkIndexEntry (evidence_id source_kind : String)
    (cache_metadata_path cache_raw_path : String) (page_title : Option String)
    (page_id revision_id : Option Nat) (sha256 endpoint : Option String)
    (params : Option (List (String × String))) : IndexEntry :=
  { evidence_id := some evidence_id
    source_kind := source_kind
    cache_metadata_path := cache_metadata_path
    cache_raw_path := cache_raw_path
    page_title := page_title
    page_id := page_id
    revision_id := revision_id
    sha256 := sha256
    endpoint := endpoint
    params := params }

/-- Translation of `update_evidence_index` (`cache/evidence_index.py`): load
the existing JSONL table into an insertion-ordered dict (skipping malformed
lines), overwrite the entry for `evidence_id`, and rewrite the file as the
dict's values in order. The file is passed and returned as its list of
lines. -/
def update_evidence_index (index_file : List IndexLine) (evidence_id source_kind : String)
    (cache_metadata_path cache_raw_path : String) (page_title : Option String)
    (page_id revision_id : Option Nat) (sha256 endpoint : Option String)
    (params : Option (List (String × String))) : List IndexLine :=
  let entry := mkIndexEntry evidence_id source_kind cache_metadata_path cache_raw_path
    page_title page_id revision_id sha256 endpoint params
  let existing := loadIndex index_file
  let existing := dictUpsert (some evidence_id) entry existing
  existing.map (fun kv => IndexLine.entry kv.2)

/-- The entries of the file that carry a given evidence id, in file order. -/
def entriesFor (evidence_id : String) (lines : List IndexLine) : List IndexEntry :=
  lines.filterMap (fun l => match l with
    | IndexLine.entry e => if e.evidence_id = some evidence_id then some e else none
    | IndexLine.malformed _ => none)

/-- Every binding in the dict is keyed by its entry's own `evidence_id`
field — an invariant of every dict `update_evidence_index` builds. -/
def KeysConsistent (d : List (Option String × IndexEntry)) : Prop :=
  ∀ kv ∈ d, kv.1 = kv.2.evidence_id

/-- Dict keys are pairwise distinct — the Python-dict invariant. -/
def NodupKeys (d : List (Option String × IndexEntry)) : Prop :=
  (d.map Prod.fst).Nodup

/-- Folding the write-back lines of a dict through the read loop again. -/
def applyEntries (acc : List (Option String × IndexEntry))
    (d : List (Option String × IndexEntry)) : List (Option String × IndexEntry) :=
  d.foldl (fun a kv => dictUpsert kv.2.evidence_id kv.2 a) acc

theorem reconcile_record_ruleset (overrides : List (String × LinkOverride))
    (dip_records : List DipPersonRecord) (use_overrides : Bool) (now : String)
    (wiki_record : WikipediaPersonRecord)
    (h : overrideApplies overrides use_overrides wiki_record = false) :
    reconcile_record overrides dip_records use_overrides now wiki_record =
      ruleset_branch dip_records now wiki_record := by
  unfold reconcile_record
  dsimp only
  unfold overrideApplies at h
  cases hov : lookupOverride (if use_overrides then overrides else [])
      wiki_record.wikipedia_title with
  | none => rfl
  | some o =>
    rw [hov] at h
    simp only at h
    simp only [h, Bool.false_eq_true, if_false]

theorem reconcile_wiki_dip_cons (overrides : List (String × LinkOverride))
    (w : WikipediaPersonRecord) (ws : List WikipediaPersonRecord)
    (dip_records : List DipPersonRecord) (use_overrides : Bool) (now : String) :
    reconcile_wiki_dip overrides (w :: ws) dip_records use_overrides now =
      ((reconcile_record overrides dip_records use_overrides now w).1 ++
        (reconcile_wiki_dip overrides ws dip_records use_overrides now).1,
       (reconcile_record overrides dip_records use_overrides now w).2 ++
        (reconcile_wiki_dip overrides ws dip_records use_overrides now).2) := by
  rfl

theorem reconcile_wiki_dip_append (overrides : List (String × LinkOverride))
    (ws₁ ws₂ : List WikipediaPersonRecord)
    (dip_records : List DipPersonRecord) (use_overrides : Bool) (now : String) :
    reconcile_wiki_dip overrides (ws₁ ++ ws₂) dip_records use_overrides now =
      ((reconcile_wiki_dip overrides ws₁ dip_records use_overrides now).1 ++
        (reconcile_wiki_dip overrides ws₂ dip_records use_overrides now).1,
       (reconcile_wiki_dip overrides ws₁ dip_records use_overrides now).2 ++
        (reconcile_wiki_dip overrides ws₂ dip_records use_overrides now).2) := by
  induction ws₁ with
  | nil => simp [reconcile_wiki_dip]
  | cons w ws ih =>
    rw [List.cons_append, reconcile_wiki_dip_cons, reconcile_wiki_dip_cons, ih]
    simp

/-- Claim C2: for every Wikipedia record handled by the ruleset whose
best-scoring DIP candidate has score ≥ 0.95 (= 95 hundredths) and exceeds the
runner-up (0 when there is only one candidate) by a margin ≥ 0.05 (= 5),
`reconcile_wiki_dip` emits exactly one assertion for that record — status
accepted, method "ruleset", score equal to the best score — and exactly one
merged canonical person. -/
theorem spec_c2_ruleset_unique_accept (overrides : List (String × LinkOverride))
    (ws₁ ws₂ : List WikipediaPersonRecord) (dip_records : List DipPersonRecord)
    (use_overrides : Bool) (now : String) (w : WikipediaPersonRecord)
    (best_dip : DipPersonRecord) (best_score : ℤ) (rest : List (DipPersonRecord × ℤ))
    (hov : overrideApplies overrides use_overrides w = false)
    (hc : sorted_candidates dip_records w = (best_dip, best_score) :: rest)
    (hbest : best_score ≥ 95)
    (hmargin : best_score - ((rest.head?.map Prod.snd).getD 0) ≥ 5) :
    reconcile_wiki_dip overrides (ws₁ ++ w :: ws₂) dip_records use_overrides now =
      ((reconcile_wiki_dip overrides ws₁ dip_records use_overrides now).1 ++
        [mkCanonicalPerson w best_dip now] ++
        (reconcile_wiki_dip overrides ws₂ dip_records use_overrides now).1,
       (reconcile_wiki_dip overrides ws₁ dip_records use_overrides now).2 ++
        [{ id := generate_link_assertion_id w.id
             (toString best_dip.dip_person_id) RULESET_VERSION
           wikipedia_person_ref := w.id
           dip_person_ref := toString best_dip.dip_person_id
           ruleset_version := RULESET_VERSION
           method := "ruleset"
           score := best_score
           status := "accepted"
           reason := "Unique match with score " ++ fmt2 best_score
           evidence_ids := w.evidence_ids ++ best_dip.evidence_ids
           created_at := now }] ++
        (reconcile_wiki_dip overrides ws₂ dip_records use_overrides now).2) := by
  rw [reconcile_wiki_dip_append, reconcile_wiki_dip_cons,
    reconcile_record_ruleset _ _ _ _ _ hov]
  unfold ruleset_branch
  rw [hc]
  dsimp only
  rw [if_pos ⟨hbest, hmargin⟩]
  simp

/-- Claim C2 witness: a concrete unique ruleset match (identical normalized
first and last name, no competing candidate) produces exactly one canonical
person and one accepted assertion with score 0.95. -/
theorem spec_c2_witness :
    reconcile_wiki_dip []
        [{ id := "wiki-1", wikipedia_title := "Max_Mustermann", page_id := 123,
           name := "Max Mustermann", evidence_ids := ["ev1"] }]
        [{ id := "dip-1", dip_person_id := 11000001, vorname := some "Max",
           nachname := some "Mustermann", namenszusatz := none, evidence_ids := ["ev2"] }]
        false "t" =
      ([mkCanonicalPerson
          { id := "wiki-1", wikipedia_title := "Max_Mustermann", page_id := 123,
            name := "Max Mustermann", evidence_ids := ["ev1"] }
          { id := "dip-1", dip_person_id := 11000001, vorname := some "Max",
            nachname := some "Mustermann", namenszusatz := none, evidence_ids := ["ev2"] }
          "t"],
       [{ id := generate_link_assertion_id "wiki-1" "11000001" RULESET_VERSION
          wikipedia_person_ref := "wiki-1"
          dip_person_ref := "11000001"
          ruleset_version := RULESET_VERSION
          method := "ruleset"
          score := 95
          status := "accepted"
          reason := "Unique match with score " ++ fmt2 95
          evidence_ids := ["ev1", "ev2"]
          created_at := "t" }]) :=
  spec_c2_ruleset_unique_accept [] [] [] _ false "t" _ _ 95 []
    (by decide) (by decide) (by decide) (by decide)

/-- Claim C3: for every Wikipedia record handled by the ruleset with at least
one candidate at the 0.5 floor but no candidate meeting both the 0.95 ceiling
and the 0.05 margin over the runner-up (in particular two candidates tied at
the same score), `reconcile_wiki_dip` emits pending assertions for up to the
top 3 candidates sorted by descending score, each carrying that candidate's
score and a reason recording the best and second-best scores, and emits zero
canonical persons for that record. -/
theorem spec_c3_ruleset_ambiguous_pending (overrides : List (String × LinkOverride))
    (ws₁ ws₂ : List WikipediaPersonRecord) (dip_records : List DipPersonRecord)
    (use_overrides : Bool) (now : String) (w : WikipediaPersonRecord)
    (best_dip : DipPersonRecord) (best_score : ℤ) (rest : List (DipPersonRecord × ℤ))
    (hov : overrideApplies overrides use_overrides w = false)
    (hc : sorted_candidates dip_records w = (best_dip, best_score) :: rest)
    (hno : ¬(best_score ≥ 95 ∧
      best_score - ((rest.head?.map Prod.snd).getD 0) ≥ 5)) :
    reconcile_wiki_dip overrides (ws₁ ++ w :: ws₂) dip_records use_overrides now =
      ((reconcile_wiki_dip overrides ws₁ dip_records use_overrides now).1 ++
        (reconcile_wiki_dip overrides ws₂ dip_records use_overrides now).1,
       (reconcile_wiki_dip overrides ws₁ dip_records use_overrides now).2 ++
        ((((best_dip, best_score) :: rest).take 3).map (fun cand =>
          { id := generate_link_assertion_id w.id
              (toString cand.1.dip_person_id) RULESET_VERSION
            wikipedia_person_ref := w.id
            dip_person_ref := toString cand.1.dip_person_id
            ruleset_version := RULESET_VERSION
            method := "ruleset"
            score := cand.2
            status := "pending"
            reason := "Ambiguous match: best=" ++ fmt2 best_score ++
              ", second=" ++ fmt2 ((rest.head?.map Prod.snd).getD 0)
            evidence_ids := w.evidence_ids ++ cand.1.evidence_ids
            created_at := now })) ++
        (reconcile_wiki_dip overrides ws₂ dip_records use_overrides now).2) := by
  rw [reconcile_wiki_dip_append, reconcile_wiki_dip_cons,
    reconcile_record_ruleset _ _ _ _ _ hov]
  unfold ruleset_branch
  rw [hc]
  dsimp only
  rw [if_neg hno]
  simp

/-- Claim C3 witness: two DIP candidates tied at score 0.95 for the same
Wikipedia record are both emitted as pending assertions recording
best = second = 0.95, and no canonical person is produced. -/
theorem spec_c3_witness :
    reconcile_wiki_dip []
        [{ id := "wiki-1", wikipedia_title := "Max_Mustermann", page_id := 123,
           name := "Max Mustermann", evidence_ids := ["ev1"] }]
        [{ id := "dip-1", dip_person_id := 11000001, vorname := some "Max",
           nachname := some "Mustermann", namenszusatz := none, evidence_ids := ["ev2"] },
         { id := "dip-2", dip_person_id := 11000002, vorname := some "Max",
           nachname := some "Mustermann", namenszusatz := some "Jr.",
           evidence_ids := ["ev3"] }]
        false "t" =
      ([],
       [{ id := generate_link_assertion_id "wiki-1" "11000001" RULESET_VERSION
          wikipedia_person_ref := "wiki-1"
          dip_person_ref := "11000001"
          ruleset_version := RULESET_VERSION
          method := "ruleset"
          score := 95
          status := "pending"
          reason := "Ambiguous match: best=" ++ fmt2 95 ++ ", second=" ++ fmt2 95
          evidence_ids := ["ev1", "ev2"]
          created_at := "t" },
        { id := generate_link_assertion_id "wiki-1" "11000002" RULESET_VERSION
          wikipedia_person_ref := "wiki-1"
          dip_person_ref := "11000002"
          ruleset_version := RULESET_VERSION
          method := "ruleset"
          score := 95
          status := "pending"
          reason := "Ambiguous match: best=" ++ fmt2 95 ++ ", second=" ++ fmt2 95
          evidence_ids := ["ev1", "ev3"]
          created_at := "t" }]) :=
  spec_c3_ruleset_ambiguous_pending [] [] [] _ false "t" _
    { id := "dip-1", dip_person_id := 11000001, vorname := some "Max",
      nachname := some "Mustermann", namenszusatz := none, evidence_ids := ["ev2"] }
    95
    [({ id := "dip-2", dip_person_id := 11000002, vorname := some "Max",
        nachname := some "Mustermann", namenszusatz := some "Jr.",
        evidence_ids := ["ev3"] }, 95)]
    (by decide) (by decide) (by decide)

/-- Claim C1 counterexample: an override carrying status "pending" for a
Wikipedia title whose target DIP id exists in the candidate set is emitted
with status "accepted", not with the override's own status — the code maps
every override status other than "rejected" to "accepted". -/
theorem spec_c1_counterexample :
    (reconcile_wiki_dip
        [("Max_Mustermann",
          { dip_person_id := some 11000001, status := some "pending",
            reason := some "checking" })]
        [{ id := "wiki-1", wikipedia_title := "Max_Mustermann", page_id := 123,
           name := "Max Mustermann", evidence_ids := ["ev1"] }]
        [{ id := "dip-1", dip_person_id := 11000001, vorname := some "Max",
           nachname := some "Mustermann", namenszusatz := none, evidence_ids := ["ev2"] }]
        true "t").2.map PersonLinkAssertion.status = ["accepted"] ∧
    ("accepted" : String) ≠ "pending" := by
  constructor
  · decide
  · decide

/-- Claim C1 as amended: for every Wikipedia record whose title has an
override naming a truthy DIP person id that exists in the DIP candidate set,
`reconcile_wiki_dip` emits exactly one assertion for that record with method
"override", score exactly 1.0 (= 100 hundredths), status accepted unless the
override's status is "rejected" (in which case rejected) — not the override's
literal status —, skips ruleset scoring for that record entirely, and emits a
canonical person iff the resulting status is accepted. -/
theorem spec_c1_override_applies (overrides : List (String × LinkOverride))
    (ws₁ ws₂ : List WikipediaPersonRecord) (dip_records : List DipPersonRecord)
    (now : String) (w : WikipediaPersonRecord) (o : LinkOverride) (d : DipPersonRecord)
    (hlook : lookupOverride overrides w.wikipedia_title = some o)
    (htru : o.dipIdTruthy = true)
    (hfind : dip_records.find?
      (fun dr => toString dr.dip_person_id == toString (o.dip_person_id.getD 0)) = some d) :
    reconcile_wiki_dip overrides (ws₁ ++ w :: ws₂) dip_records true now =
      ((reconcile_wiki_dip overrides ws₁ dip_records true now).1 ++
        (if (if o.status ≠ some "rejected" then "accepted" else "rejected") = "accepted"
          then [mkCanonicalPerson w d now] else []) ++
        (reconcile_wiki_dip overrides ws₂ dip_records true now).1,
       (reconcile_wiki_dip overrides ws₁ dip_records true now).2 ++
        [{ id := generate_link_assertion_id w.id
             (toString (o.dip_person_id.getD 0)) RULESET_VERSION
           wikipedia_person_ref := w.id
           dip_person_ref := toString (o.dip_person_id.getD 0)
           ruleset_version := RULESET_VERSION
           method := "override"
           score := 100
           status := if o.status ≠ some "rejected" then "accepted" else "rejected"
           reason := o.reason.getD "Manual override"
           evidence_ids := w.evidence_ids ++ d.evidence_ids
           created_at := now }] ++
        (reconcile_wiki_dip overrides ws₂ dip_records true now).2) := by
  rw [reconcile_wiki_dip_append, reconcile_wiki_dip_cons]
  have hrec : reconcile_record overrides dip_records true now w =
      override_branch o dip_records now w := by
    unfold reconcile_record
    dsimp only
    rw [if_pos rfl, hlook]
    simp only [htru, if_true]
  rw [hrec]
  unfold override_branch
  dsimp only
  rw [hfind]
  dsimp only
  by_cases hst : o.status ≠ some "rejected"
  · rw [if_pos hst, if_pos rfl, if_pos (by simp [hst])]
    simp
  · rw [if_neg hst, if_neg (by decide), if_neg (by simp [hst])]
    simp

/-- Claim C1 witness: a concrete override with no status field (defaulting to
accepted) whose target exists yields exactly one override assertion with
score 1.0 and one canonical person. -/
theorem spec_c1_witness :
    reconcile_wiki_dip
        [("Max_Mustermann",
          { dip_person_id := some 11000001, status := none, reason := none })]
        [{ id := "wiki-1", wikipedia_title := "Max_Mustermann", page_id := 123,
           name := "Max Mustermann", evidence_ids := ["ev1"] }]
        [{ id := "dip-1", dip_person_id := 11000001, vorname := some "Max",
           nachname := some "Mustermann", namenszusatz := none, evidence_ids := ["ev2"] }]
        true "t" =
      ([mkCanonicalPerson
          { id := "wiki-1", wikipedia_title := "Max_Mustermann", page_id := 123,
            name := "Max Mustermann", evidence_ids := ["ev1"] }
          { id := "dip-1", dip_person_id := 11000001, vorname := some "Max",
            nachname := some "Mustermann", namenszusatz := none, evidence_ids := ["ev2"] }
          "t"],
       [{ id := generate_link_assertion_id "wiki-1" "11000001" RULESET_VERSION
          wikipedia_person_ref := "wiki-1"
          dip_person_ref := "11000001"
          ruleset_version := RULESET_VERSION
          method := "override"
          score := 100
          status := "accepted"
          reason := "Manual override"
          evidence_ids := ["ev1", "ev2"]
          created_at := "t" }]) :=
  spec_c1_override_applies
    [("Max_Mustermann", { dip_person_id := some 11000001, status := none, reason := none })]
    [] [] _ "t" _
    { dip_person_id := some 11000001, status := none, reason := none } _
    (by decide) (by decide) (by decide)

/-- Claim C5 counterexample: a Wikipedia record whose override names a DIP
person id absent from the DIP candidate set yields an empty assertion list —
the loop continues without materializing any assertion for that record, so
the assertion trail is not complete in that case. -/
theorem spec_c5_counterexample :
    (reconcile_wiki_dip
        [("Max_Mustermann",
          { dip_person_id := some 99, status := none, reason := none })]
        [{ id := "wiki-1", wikipedia_title := "Max_Mustermann", page_id := 123,
           name := "Max Mustermann", evidence_ids := ["ev1"] }]
        [{ id := "dip-1", dip_person_id := 11000001, vorname := some "Max",
           nachname := some "Mustermann", namenszusatz := none, evidence_ids := ["ev2"] }]
        true "t").2 = [] := by
  decide

theorem reconcile_record_assertions_nonempty (overrides : List (String × LinkOverride))
    (dip_records : List DipPersonRecord) (use_overrides : Bool) (now : String)
    (w : WikipediaPersonRecord)
    (h : overrideTargetMissing overrides dip_records use_overrides w = false) :
    (reconcile_record overrides dip_records use_overrides now w).2 ≠ [] ∧
    ∀ a ∈ (reconcile_record overrides dip_records use_overrides now w).2,
      a.wikipedia_person_ref = w.id := by
  unfold overrideTargetMissing at h
  unfold reconcile_record
  dsimp only
  have hruleset : (ruleset_branch dip_records now w).2 ≠ [] ∧
      ∀ a ∈ (ruleset_branch dip_records now w).2, a.wikipedia_person_ref = w.id := by
    unfold ruleset_branch
    cases hc : sorted_candidates dip_records w with
    | nil => simp
    | cons best rest =>
      dsimp only
      by_cases hacc : best.2 ≥ 95 ∧ best.2 - ((rest.head?.map Prod.snd).getD 0) ≥ 5
      · rw [if_pos hacc]; simp
      · rw [if_neg hacc]
        constructor
        · simp
        · intro a ha
          simp only [List.mem_map] at ha
          obtain ⟨cand, _, rfl⟩ := ha
          rfl
  cases hov : lookupOverride (if use_overrides then overrides else []) w.wikipedia_title with
  | none => exact hruleset
  | some o =>
    dsimp only at h ⊢
    by_cases htru : o.dipIdTruthy
    · rw [if_pos htru]
      rw [hov] at h
      dsimp only at h
      rw [htru] at h
      simp only [Bool.true_and, Option.isNone_eq_false_iff, Option.isSome_iff_ne_none] at h
      unfold override_branch
      dsimp only
      cases hfind : dip_records.find?
          (fun d => toString d.dip_person_id == toString (o.dip_person_id.getD 0)) with
      | none => exact absurd hfind h
      | some d =>
        dsimp only
        by_cases hst : (if o.status ≠ some "rejected" then "accepted" else "rejected") = "accepted"
        · rw [if_pos hst]; simp
        · rw [if_neg hst]; simp
    · rw [if_neg (by simpa using htru)]
      exact hruleset

/-- Claim C5 as amended: `reconcile_wiki_dip` always terminates (it is a
total function) and, for every Wikipedia record in the input except one whose
override names a DIP person id absent from the DIP candidate set, at least
one assertion referencing that record is present in the returned assertion
list, even when no canonical persons are produced; a record with an
absent-target override contributes no assertion at all. -/
theorem spec_c5_assertion_trail (overrides : List (String × LinkOverride))
    (wiki_records : List WikipediaPersonRecord) (dip_records : List DipPersonRecord)
    (use_overrides : Bool) (now : String) (w : WikipediaPersonRecord)
    (hmem : w ∈ wiki_records)
    (h : overrideTargetMissing overrides dip_records use_overrides w = false) :
    ∃ a ∈ (reconcile_wiki_dip overrides wiki_records dip_records use_overrides now).2,
      a.wikipedia_person_ref = w.id := by
  induction wiki_records with
  | nil => cases hmem
  | cons w₀ ws ih =>
    rw [reconcile_wiki_dip_cons]
    rcases List.mem_cons.mp hmem with rfl | hmem'
    · obtain ⟨hne, hall⟩ :=
        reconcile_record_assertions_nonempty overrides dip_records use_overrides now w h
      obtain ⟨a, ha⟩ := List.exists_mem_of_ne_nil _ hne
      exact ⟨a, by simp [List.mem_append, ha], hall a ha⟩
    · obtain ⟨a, ha, href⟩ := ih hmem'
      exact ⟨a, by simp [List.mem_append, ha], href⟩

/-- Claim C5 witness: in a concrete run containing a no-candidate record, an
assertion referencing that record exists even though no canonical person is
produced. -/
theorem spec_c5_witness :
    ∃ a ∈ (reconcile_wiki_dip []
        [{ id := "wiki-9", wikipedia_title := "Nobody", page_id := 9,
           name := "Nobody Atall", evidence_ids := [] }]
        [] false "t").2,
      a.wikipedia_person_ref = "wiki-9" :=
  spec_c5_assertion_trail [] _ [] false "t"
    { id := "wiki-9", wikipedia_title := "Nobody", page_id := 9,
      name := "Nobody Atall", evidence_ids := [] }
    (by decide) (by decide)

/-- Claim C4 counterexample: two accepted ruleset matches sharing the same
Wikipedia title but differing in DIP person id produce canonical persons with
the *same* id — the id is derived from the Wikipedia title alone, not from
the pair of source keys, so "different DIP person id implies different
canonical id" fails. -/
theorem spec_c4_counterexample :
    ((reconcile_wiki_dip []
        [{ id := "wiki-1", wikipedia_title := "Max_Mustermann", page_id := 123,
           name := "Max Mustermann", evidence_ids := ["ev1"] }]
        [{ id := "dip-1", dip_person_id := 11000001, vorname := some "Max",
           nachname := some "Mustermann", namenszusatz := none, evidence_ids := ["ev2"] }]
        false "t").1.map CanonicalPerson.id =
     (reconcile_wiki_dip []
        [{ id := "wiki-1", wikipedia_title := "Max_Mustermann", page_id := 123,
           name := "Max Mustermann", evidence_ids := ["ev1"] }]
        [{ id := "dip-3", dip_person_id := 22000002, vorname := some "Max",
           nachname := some "Mustermann", namenszusatz := none, evidence_ids := ["ev4"] }]
        false "t").1.map CanonicalPerson.id) ∧
    (reconcile_wiki_dip []
        [{ id := "wiki-1", wikipedia_title := "Max_Mustermann", page_id := 123,
           name := "Max Mustermann", evidence_ids := ["ev1"] }]
        [{ id := "dip-1", dip_person_id := 11000001, vorname := some "Max",
           nachname := some "Mustermann", namenszusatz := none, evidence_ids := ["ev2"] }]
        false "t").2.map PersonLinkAssertion.status = ["accepted"] ∧
    (reconcile_wiki_dip []
        [{ id := "wiki-1", wikipedia_title := "Max_Mustermann", page_id := 123,
           name := "Max Mustermann", evidence_ids := ["ev1"] }]
        [{ id := "dip-3", dip_person_id := 22000002, vorname := some "Max",
           nachname := some "Mustermann", namenszusatz := none, evidence_ids := ["ev4"] }]
        false "t").2.map PersonLinkAssertion.status = ["accepted"] ∧
    (11000001 : Nat) ≠ 22000002 := by
  refine ⟨by decide, by decide, by decide, by decide⟩

/-- Claim C4 as amended: the emitted CanonicalPerson's id is a deterministic
function of the Wikipedia source key alone whenever that key is non-empty —
two accepted matches agreeing on the Wikipedia title yield the same canonical
id regardless of their DIP person ids —; when only the DIP person id is known
(absent or empty title, nonzero id) the id is derived from that single key;
every combination of arguments is handled totally (no crash). -/
theorem spec_c4_canonical_id_derivation (t : String) (ht : t ≠ "")
    (d₁ d₂ : Option Nat) (now₁ now₂ : String) (k : Nat) (hk : k ≠ 0) :
    generate_canonical_id (some t) d₁ now₁ = generate_canonical_id (some t) d₂ now₂ ∧
    generate_canonical_id none (some k) now₁ =
      uuid5 NAMESPACE_PERSON ("dip:" ++ toString k) ∧
    generate_canonical_id (some "") (some k) now₁ =
      uuid5 NAMESPACE_PERSON ("dip:" ++ toString k) ∧
    ∀ (w : WikipediaPersonRecord) (dr : DipPersonRecord) (now : String),
      (mkCanonicalPerson w dr now).id =
        generate_canonical_id (some w.wikipedia_title) (some dr.dip_person_id) now := by
  refine ⟨?_, ?_, ?_, fun w dr now => rfl⟩
  · unfold generate_canonical_id
    rw [if_pos (by simpa using ht), if_pos (by simpa using ht)]
  · unfold generate_canonical_id
    rw [if_neg (by simp), if_pos (by simpa using hk)]
    rfl
  · unfold generate_canonical_id
    rw [if_neg (by simp), if_pos (by simpa using hk)]
    rfl

/-- Claim C4 witness: concrete instantiation of the amended derivation facts
at title "Max_Mustermann" and DIP ids 11000001 / 22000002. -/
theorem spec_c4_witness :
    generate_canonical_id (some "Max_Mustermann") (some 11000001) "t1" =
      generate_canonical_id (some "Max_Mustermann") (some 22000002) "t2" ∧
    generate_canonical_id none (some 7) "t1" =
      uuid5 NAMESPACE_PERSON ("dip:" ++ toString 7) ∧
    generate_canonical_id (some "") (some 7) "t1" =
      uuid5 NAMESPACE_PERSON ("dip:" ++ toString 7) ∧
    ∀ (w : WikipediaPersonRecord) (dr : DipPersonRecord) (now : String),
      (mkCanonicalPerson w dr now).id =
        generate_canonical_id (some w.wikipedia_title) (some dr.dip_person_id) now :=
  spec_c4_canonical_id_derivation "Max_Mustermann" (by decide)
    (some 11000001) (some 22000002) "t1" "t2" 7 (by decide)

/-- Claim C10: for every Wikipedia record whose normalized display name is a
single token, `score_match` against any DIP record is at most 0.45 (= 45
hundredths), because the family-name part is empty so the 0.50/0.48 weights
can never apply (and the suffix bonus needs an interior token); such a record
never reaches the 0.5 candidate floor, so the ruleset path emits exactly the
single pending "no candidate found" assertion for it and never an accepted
match. -/
theorem spec_c10_single_token_name (w : WikipediaPersonRecord)
    (htok : (pySplit (normalize_name w.name)).length = 1) :
    (∀ d, score_match w d ≤ 45) ∧
    (∀ dip_records, sorted_candidates dip_records w = []) ∧
    (∀ dip_records now, ruleset_branch dip_records now w =
      ([], [{ id := generate_link_assertion_id w.id "none" RULESET_VERSION
              wikipedia_person_ref := w.id
              dip_person_ref := "none"
              ruleset_version := RULESET_VERSION
              method := "ruleset"
              score := 0
              status := "pending"
              reason := "No candidate found with score >= 0.5"
              evidence_ids := w.evidence_ids
              created_at := now }])) := by
  obtain ⟨p, hp⟩ : ∃ p, pySplit (normalize_name w.name) = [p] := by
    cases hq : pySplit (normalize_name w.name) with
    | nil => rw [hq] at htok; cases htok
    | cons a l =>
      rw [hq] at htok
      cases l with
      | nil => exact ⟨a, rfl⟩
      | cons b m => simp at htok
  have hparts : extract_name_parts (normalize_name w.name) = (p, "", none) := by
    unfold extract_name_parts
    rw [hp]
  have hscore : ∀ d, score_match w d ≤ 45 := by
    intro d
    unfold score_match
    dsimp only
    rw [hparts]
    dsimp only
    simp only [ne_eq, not_true_eq_false, false_and, if_false, Option.getD_none]
    split_ifs <;> omega
  have hsorted : ∀ dip_records, sorted_candidates dip_records w = [] := by
    intro dip_records
    unfold sorted_candidates candidate_scores
    have hnil : dip_records.filterMap (fun dip_record =>
        let score := score_match w dip_record
        if score ≥ 50 then some (dip_record, score) else none) = [] := by
      rw [List.filterMap_eq_nil_iff]
      intro d hd
      dsimp only
      rw [if_neg (by have := hscore d; omega)]
    rw [hnil]
    rfl
  refine ⟨hscore, hsorted, fun dip_records now => ?_⟩
  unfold ruleset_branch
  rw [hsorted dip_records]

/-- Claim C10 witness: the single-token record "Madonna" scores at most 0.45
against a DIP record that even shares that token as family name, and the
ruleset branch emits exactly the no-candidate pending assertion. -/
theorem spec_c10_witness :
    score_match
      { id := "wiki-m", wikipedia_title := "Madonna", page_id := 5,
        name := "Madonna", evidence_ids := ["ev5"] }
      { id := "dip-m", dip_person_id := 3, vorname := some "Madonna",
        nachname := some "Madonna", namenszusatz := none, evidence_ids := ["ev6"] } ≤ 45 ∧
    ruleset_branch
      [{ id := "dip-m", dip_person_id := 3, vorname := some "Madonna",
         nachname := some "Madonna", namenszusatz := none, evidence_ids := ["ev6"] }]
      "t"
      { id := "wiki-m", wikipedia_title := "Madonna", page_id := 5,
        name := "Madonna", evidence_ids := ["ev5"] } =
      ([], [{ id := generate_link_assertion_id "wiki-m" "none" RULESET_VERSION
              wikipedia_person_ref := "wiki-m"
              dip_person_ref := "none"
              ruleset_version := RULESET_VERSION
              method := "ruleset"
              score := 0
              status := "pending"
              reason := "No candidate found with score >= 0.5"
              evidence_ids := ["ev5"]
              created_at := "t" }]) :=
  ⟨(spec_c10_single_token_name
      { id := "wiki-m", wikipedia_title := "Madonna", page_id := 5,
        name := "Madonna", evidence_ids := ["ev5"] } (by decide)).1 _,
   (spec_c10_single_token_name
      { id := "wiki-m", wikipedia_title := "Madonna", page_id := 5,
        name := "Madonna", evidence_ids := ["ev5"] } (by decide)).2.2 _ "t"⟩

theorem beforeLastSpace_spec (cs : List Char) (r : List Char)
    (h : beforeLastSpace cs = some r) : r <+: cs ∧ cs[r.length]? = some ' ' := by
  induction cs generalizing r with
  | nil => simp [beforeLastSpace] at h
  | cons c cs ih =>
    unfold beforeLastSpace at h
    cases hb : beforeLastSpace cs with
    | some r' =>
      rw [hb] at h
      cases h
      obtain ⟨hpre, hget⟩ := ih r' hb
      exact ⟨by simpa using hpre, by simpa using hget⟩
    | none =>
      rw [hb] at h
      by_cases hc : c = ' '
      · rw [if_pos hc] at h
        cases h
        simp [hc]
      · rw [if_neg hc] at h
        cases h

theorem beforeLastSpace_eq_none (cs : List Char) :
    beforeLastSpace cs = none ↔ ' ' ∉ cs := by
  induction cs with
  | nil => simp [beforeLastSpace]
  | cons c cs ih =>
    unfold beforeLastSpace
    cases hb : beforeLastSpace cs with
    | some r' =>
      simp only [reduceCtorEq, false_iff]
      intro hmem
      exact hmem (List.mem_cons_of_mem c
        (List.getElem?_mem (beforeLastSpace_spec cs r' hb).2))
    | none =>
      by_cases hc : c = ' '
      · simp [if_pos hc, hc]
      · simp only [if_neg hc, List.mem_cons, true_iff]
        push_neg
        exact ⟨fun hs => hc hs.symm, ih.mp hb⟩

/-- Claim C7 counterexample: a lead paragraph consisting of one 90-character
word, truncated to `max_len = 10`, is cut mid-word — the text before the
ellipsis marker is the raw 10-character prefix and the next character of the
original cleaned string is a letter, not a whitespace boundary. -/
theorem spec_c7_counterexample :
    extract_lead_paragraph
        (some { parser_output := some [(⟨List.replicate 90 'a'⟩ : String)], tables := [] })
        10 =
      some ((⟨List.replicate 10 'a'⟩ : String) ++ "...") ∧
    clean_snippet_text (⟨List.replicate 90 'a'⟩ : String) = ⟨List.replicate 90 'a'⟩ ∧
    (⟨List.replicate 90 'a'⟩ : String).length > 10 ∧
    (List.replicate 90 'a')[10]? = some 'a' ∧ ('a' : Char) ≠ ' ' := by
  refine ⟨by decide, by decide, by decide, by decide, by decide⟩

/-- Claim C7 as amended: for every cleaned snippet string strictly longer
than `max_len`, the truncated result has length ≤ `max_len + 3` and ends in
the three-character ellipsis marker; when the `max_len`-prefix contains a
space, the text before the marker is a prefix of the original ending at a
whitespace boundary (the next original character is a space); when the prefix
contains no space the kept text is the raw `max_len`-prefix, i.e. the cut can
fall mid-word. -/
theorem spec_c7_truncation (s : String) (max_len : Nat) (h : s.length > max_len) :
    (truncate_snippet s max_len).length ≤ max_len + 3 ∧
    ∃ kept : List Char,
      (truncate_snippet s max_len).data = kept ++ ['.', '.', '.'] ∧
      kept <+: s.data ∧
      (' ' ∈ s.data.take max_len → s.data[kept.length]? = some ' ') ∧
      (' ' ∉ s.data.take max_len → kept = s.data.take max_len) := by
  have hdata : (truncate_snippet s max_len).data =
      dropLastWord (s.data.take max_len) ++ ['.', '.', '.'] := by
    unfold truncate_snippet
    rw [if_pos h]
    rfl
  have hlen_take : (s.data.take max_len).length ≤ max_len := by
    simp
  have hkept_le : (dropLastWord (s.data.take max_len)).length ≤ max_len := by
    unfold dropLastWord
    cases hb : beforeLastSpace (s.data.take max_len) with
    | none => simp [hlen_take]
    | some r =>
      have hget := (beforeLastSpace_spec _ r hb).2
      have hlt : r.length < (s.data.take max_len).length :=
        (List.getElem?_eq_some.mp hget).1
      simp only [Option.getD_some]
      omega
  refine ⟨?_, dropLastWord (s.data.take max_len), hdata, ?_, ?_, ?_⟩
  · have : (truncate_snippet s max_len).length =
        (dropLastWord (s.data.take max_len)).length + 3 := by
      have := congrArg List.length hdata
      simpa using this
    omega
  · unfold dropLastWord
    cases hb : beforeLastSpace (s.data.take max_len) with
    | none => simpa using List.take_prefix max_len s.data
    | some r =>
      simp only [Option.getD_some]
      exact ((beforeLastSpace_spec _ r hb).1).trans (List.take_prefix max_len s.data)
  · intro hsp
    unfold dropLastWord
    cases hb : beforeLastSpace (s.data.take max_len) with
    | none => exact absurd hsp ((beforeLastSpace_eq_none _).mp hb)
    | some r =>
      simp only [Option.getD_some]
      have hget := (beforeLastSpace_spec _ r hb).2
      have hlt : r.length < (s.data.take max_len).length :=
        (List.getElem?_eq_some.mp hget).1
      rw [List.getElem?_take] at hget
      · rw [if_pos (by omega)] at hget
        exact hget
  · intro hsp
    unfold dropLastWord
    cases hb : beforeLastSpace (s.data.take max_len) with
    | none => rfl
    | some r =>
      exact absurd (List.getElem?_mem (beforeLastSpace_spec _ r hb).2) hsp

/-- Claim C7 witness: instantiation of the amended truncation bound on the
concrete cleaned string "alpha beta gamma" with `max_len = 10`. -/
theorem spec_c7_witness :
    (truncate_snippet "alpha beta gamma" 10).length ≤ 10 + 3 ∧
    ∃ kept : List Char,
      (truncate_snippet "alpha beta gamma" 10).data = kept ++ ['.', '.', '.'] ∧
      kept <+: "alpha beta gamma".data ∧
      (' ' ∈ "alpha beta gamma".data.take 10 →
        "alpha beta gamma".data[kept.length]? = some ' ') ∧
      (' ' ∉ "alpha beta gamma".data.take 10 → kept = "alpha beta gamma".data.take 10) :=
  spec_c7_truncation "alpha beta gamma" 10 (by decide)

/-- Claim C6 counterexample: with a supplied table-row reference whose
extraction fails (the document has no tables) and the default
`prefer = "table_row"`, `extract_snippet` returns no snippet at all even
though a non-empty lead paragraph exists — the lead-paragraph fallback does
not run on table-row failure. -/
theorem spec_c6_counterexample :
    extract_snippet
        (some { parser_output := some ["Some lead paragraph text."], tables := [] })
        (some (SnippetRef.dict
          { type := some "table_row", table_index := some 0, row_index := some 0 }))
        500 "table_row" = (none, none) ∧
    extract_lead_paragraph
        (some { parser_output := some ["Some lead paragraph text."], tables := [] })
        500 = some "Some lead paragraph text." := by
  refine ⟨by decide, by decide⟩

/-- Claim C6 as amended: for every document and supplied table-row reference,
`extract_snippet` attempts table-row extraction first and returns its result
with strategy "table_row" when it succeeds (for any `prefer`); when table-row
extraction fails, lead-paragraph extraction acts as the fallback only when
the caller passes `prefer = "lead_paragraph"` — with the default
`prefer = "table_row"` and a supplied reference, failure yields no snippet at
all. -/
theorem spec_c6_table_row_preference (html : Option HtmlDoc) (d : SnippetDict)
    (max_len : Nat) (htype : d.type = some "table_row") :
    (extract_table_row_snippet html d max_len = none →
      extract_snippet html (some (SnippetRef.dict d)) max_len "table_row" = (none, none) ∧
      extract_snippet html (some (SnippetRef.dict d)) max_len "lead_paragraph" =
        (match extract_lead_paragraph html max_len with
         | some s => if s ≠ "" then (some s, some "lead_paragraph") else (none, none)
         | none => (none, none))) ∧
    (∀ s, extract_table_row_snippet html d max_len = some s → s ≠ "" →
      ∀ prefer, extract_snippet html (some (SnippetRef.dict d)) max_len prefer =
        (some s, some "table_row")) := by
  have htr : refTruthy (some (SnippetRef.dict d)) = true := by
    simp [refTruthy, SnippetDict.isEmptyDict, htype]
  cases html with
  | none =>
    refine ⟨fun _ => ⟨rfl, rfl⟩, fun s hs => ?_⟩
    simp [extract_table_row_snippet] at hs
  | some doc =>
    constructor
    · intro hnone
      constructor
      · unfold extract_snippet
        dsimp only
        rw [htr, if_pos rfl, if_pos htype, hnone]
        simp
      · unfold extract_snippet
        dsimp only
        rw [htr, if_pos rfl, if_pos htype, hnone]
        simp
    · intro s hs hne prefer
      unfold extract_snippet
      dsimp only
      rw [htr, if_pos rfl, if_pos htype, hs]
      dsimp only
      rw [if_pos hne]

/-- Claim C6 witness: concrete instantiation — a document with a long lead
paragraph and no tables, and a failing table-row reference: the run with
`prefer = "table_row"` yields nothing, the run with
`prefer = "lead_paragraph"` yields the lead paragraph. -/
theorem spec_c6_witness :
    extract_snippet
        (some { parser_output := some ["A first paragraph that is comfortably longer than the eighty character minimum bound."], tables := [] })
        (some (SnippetRef.dict
          { type := some "table_row", table_index := some 0, row_index := some 0 }))
        500 "table_row" = (none, none) ∧
    extract_snippet
        (some { parser_output := some ["A first paragraph that is comfortably longer than the eighty character minimum bound."], tables := [] })
        (some (SnippetRef.dict
          { type := some "table_row", table_index := some 0, row_index := some 0 }))
        500 "lead_paragraph" =
      (match extract_lead_paragraph
          (some { parser_output := some ["A first paragraph that is comfortably longer than the eighty character minimum bound."], tables := [] })
          500 with
       | some s => if s ≠ "" then (some s, some "lead_paragraph") else (none, none)
       | none => (none, none)) :=
  (spec_c6_table_row_preference
    (some { parser_output := some ["A first paragraph that is comfortably longer than the eighty character minimum bound."], tables := [] })
    { type := some "table_row", table_index := some 0, row_index := some 0 }
    500 (by decide)).1 (by decide)

theorem splitOnChar_cons (sep c : Char) (cs : List Char) :
    splitOnChar sep (c :: cs) =
      match splitOnChar sep cs with
      | [] => [[]]
      | w :: ws => if c = sep then [] :: w :: ws else (c :: w) :: ws := rfl

theorem splitOnChar_ne_nil (sep : Char) (cs : List Char) : splitOnChar sep cs ≠ [] := by
  induction cs with
  | nil => simp [splitOnChar]
  | cons c cs ih =>
    rw [splitOnChar_cons]
    cases hsp : splitOnChar sep cs with
    | nil => exact absurd hsp ih
    | cons w ws => by_cases hc : c = sep <;> simp [hc]

theorem splitOnChar_of_not_mem (sep : Char) (b : List Char) (h : sep ∉ b) :
    splitOnChar sep b = [b] := by
  induction b with
  | nil => rfl
  | cons c cs ih =>
    rw [splitOnChar_cons, ih (fun hm => h (List.mem_cons_of_mem c hm))]
    dsimp only
    rw [if_neg (fun hc => h (by simp [hc]))]

theorem splitOnChar_append (sep : Char) (a b : List Char) (h : sep ∉ a) :
    splitOnChar sep (a ++ sep :: b) = a :: splitOnChar sep b := by
  induction a with
  | nil =>
    simp only [List.nil_append]
    rw [splitOnChar_cons]
    cases hsp : splitOnChar sep b with
    | nil => exact absurd hsp (splitOnChar_ne_nil sep b)
    | cons w ws => simp
  | cons c cs ih =>
    simp only [List.cons_append]
    rw [splitOnChar_cons, ih (fun hm => h (List.mem_cons_of_mem c hm))]
    dsimp only
    rw [if_neg (fun hc => h (by simp [hc]))]

theorem pyIntDigits_no_colon (cs : List Char) (n : Nat) (h : pyIntDigits cs = some n) :
    ':' ∉ cs := by
  unfold pyIntDigits at h
  split_ifs at h with hcond
  · intro hmem
    have := hcond.2
    rw [List.all_eq_true] at this
    have hdig := this ':' hmem
    simp [Char.isDigit] at hdig

/-- Claim C8: for every document, `max_len`, `prefer` and non-negative
coordinates i, j (given as their decimal digit strings), `extract_snippet`
with the legacy string reference `"table_row:i:j"` returns exactly the same
(snippet, strategy) pair as with the typed dict reference
`{type := "table_row", table_index := i, row_index := j}` — the
colon-delimited encoding decodes to the same behaviour as the typed
variant. -/
theorem spec_c8_legacy_ref_equivalence (html : Option HtmlDoc) (max_len : Nat)
    (prefer : String) (si sj : String) (i j : Nat)
    (hi : pyIntDigits si.data = some i) (hj : pyIntDigits sj.data = some j) :
    extract_snippet html (some (SnippetRef.str ("table_row:" ++ si ++ ":" ++ sj)))
        max_len prefer =
      extract_snippet html (some (SnippetRef.dict
        { type := some "table_row", table_index := some i, row_index := some j }))
        max_len prefer := by
  have hsdata : ("table_row:" ++ si ++ ":" ++ sj).data =
      "table_row".data ++ ':' :: (si.data ++ ':' :: sj.data) := by
    have h1 : ("table_row:" : String).data = "table_row".data ++ [':'] := by decide
    have h2 : (":" : String).data = [':'] := by decide
    simp [String.data_append, h1, h2]
  have hsplit : splitOnChar ':' ("table_row:" ++ si ++ ":" ++ sj).data =
      ["table_row".data, si.data, sj.data] := by
    rw [hsdata, splitOnChar_append ':' _ _ (by decide),
      splitOnChar_append ':' _ _ (pyIntDigits_no_colon _ _ hi),
      splitOnChar_of_not_mem ':' _ (pyIntDigits_no_colon _ _ hj)]
  have hlegacy : legacyRefDict ("table_row:" ++ si ++ ":" ++ sj) =
      some { type := some "table_row", table_index := some i, row_index := some j } := by
    unfold legacyRefDict
    rw [hsplit]
    simp [hi, hj]
  have hstart : pyStartsWith ("table_row:" ++ si ++ ":" ++ sj) "table_row:" = true := by
    unfold pyStartsWith
    rw [List.isPrefixOf_iff_prefix, hsdata]
    have h1 : ("table_row:" : String).data = "table_row".data ++ [':'] := by decide
    rw [h1]
    have : "table_row".data ++ ':' :: (si.data ++ ':' :: sj.data) =
        ("table_row".data ++ [':']) ++ (si.data ++ ':' :: sj.data) := by simp
    rw [this]
    exact List.prefix_append _ _
  have htrs : refTruthy (some (SnippetRef.str ("table_row:" ++ si ++ ":" ++ sj))) = true := by
    have hne : ("table_row:" ++ si ++ ":" ++ sj).data ≠ [] := by
      rw [hsdata]; simp
    simp only [refTruthy, ne_eq, decide_eq_true_eq]
    exact fun he => hne (by rw [he])
  have htrd : refTruthy (some (SnippetRef.dict
      { type := some "table_row", table_index := some i, row_index := some j })) = true := by
    simp [refTruthy, SnippetDict.isEmptyDict]
  cases html with
  | none => rfl
  | some doc =>
    unfold extract_snippet
    dsimp only
    rw [htrs, htrd, if_pos rfl, if_pos rfl, hstart]
    rw [if_pos rfl, hlegacy, if_pos rfl]

/-- Claim C8 witness: the legacy string "table_row:0:0" and the typed
reference agree on a concrete one-table document. -/
theorem spec_c8_witness :
    extract_snippet
        (some { parser_output := none,
                tables := [{ wikitable := true,
                             rows := [["Name", "Party"], ["Stephan Weil", "SPD"]] }] })
        (some (SnippetRef.str ("table_row:" ++ "0" ++ ":" ++ "0"))) 500 "table_row" =
      extract_snippet
        (some { parser_output := none,
                tables := [{ wikitable := true,
                             rows := [["Name", "Party"], ["Stephan Weil", "SPD"]] }] })
        (some (SnippetRef.dict
          { type := some "table_row", table_index := some 0, row_index := some 0 }))
        500 "table_row" :=
  spec_c8_legacy_ref_equivalence _ 500 "table_row" "0" "0" 0 0 (by decide) (by decide)

theorem dictUpsert_mem (k : Option String) (v : IndexEntry)
    (d : List (Option String × IndexEntry)) (kv : Option String × IndexEntry)
    (h : kv ∈ dictUpsert k v d) : kv ∈ d ∨ kv = (k, v) := by
  induction d with
  | nil => simpa [dictUpsert] using h
  | cons hd tl ih =>
    obtain ⟨k', v'⟩ := hd
    unfold dictUpsert at h
    by_cases hk : k' = k
    · rw [if_pos hk] at h
      rcases List.mem_cons.mp h with rfl | hmem
      · exact Or.inr rfl
      · exact Or.inl (List.mem_cons_of_mem _ hmem)
    · rw [if_neg hk] at h
      rcases List.mem_cons.mp h with rfl | hmem
      · exact Or.inl (List.mem_cons_self _ _)
      · rcases ih hmem with hm | he
        · exact Or.inl (List.mem_cons_of_mem _ hm)
        · exact Or.inr he

theorem dictUpsert_keysConsistent (k : Option String) (v : IndexEntry)
    (d : List (Option String × IndexEntry)) (hd : KeysConsistent d)
    (hv : k = v.evidence_id) : KeysConsistent (dictUpsert k v d) := by
  intro kv hkv
  rcases dictUpsert_mem k v d kv hkv with hm | rfl
  · exact hd kv hm
  · exact hv

theorem dictUpsert_key_mem (k : Option String) (v : IndexEntry)
    (d : List (Option String × IndexEntry)) (k'' : Option String)
    (h : k'' ∈ (dictUpsert k v d).map Prod.fst) :
    k'' ∈ d.map Prod.fst ∨ k'' = k := by
  rcases List.mem_map.mp h with ⟨kv, hkv, rfl⟩
  rcases dictUpsert_mem k v d kv hkv with hm | rfl
  · exact Or.inl (List.mem_map_of_mem Prod.fst hm)
  · exact Or.inr rfl

theorem dictUpsert_nodupKeys (k : Option String) (v : IndexEntry)
    (d : List (Option String × IndexEntry)) (hd : NodupKeys d) :
    NodupKeys (dictUpsert k v d) := by
  induction d with
  | nil => simp [dictUpsert, NodupKeys]
  | cons hd₀ tl ih =>
    obtain ⟨k', v'⟩ := hd₀
    unfold NodupKeys at hd
    simp only [List.map_cons, List.nodup_cons] at hd
    obtain ⟨hknotin, hnd⟩ := hd
    unfold dictUpsert NodupKeys
    by_cases hk : k' = k
    · subst hk
      rw [if_pos rfl]
      simp only [List.map_cons, List.nodup_cons]
      exact ⟨hknotin, hnd⟩
    · rw [if_neg hk]
      simp only [List.map_cons, List.nodup_cons]
      refine ⟨?_, ih hnd⟩
      intro hmem
      rcases dictUpsert_key_mem k v tl k' hmem with hm | he
      · exact hknotin hm
      · exact hk he

theorem loadIndexAux_invariants (lines : List IndexLine)
    (acc : List (Option String × IndexEntry)) (hKC : KeysConsistent acc)
    (hNK : NodupKeys acc) :
    KeysConsistent (loadIndexAux acc lines) ∧ NodupKeys (loadIndexAux acc lines) := by
  induction lines generalizing acc with
  | nil => exact ⟨hKC, hNK⟩
  | cons l rest ih =>
    cases l with
    | malformed raw => exact ih acc hKC hNK
    | entry e =>
      exact ih (dictUpsert e.evidence_id e acc)
        (dictUpsert_keysConsistent _ _ _ hKC rfl)
        (dictUpsert_nodupKeys _ _ _ hNK)

theorem loadIndex_invariants (lines : List IndexLine) :
    KeysConsistent (loadIndex lines) ∧ NodupKeys (loadIndex lines) :=
  loadIndexAux_invariants lines [] (fun _ h => absurd h (List.not_mem_nil _))
    (by simp [NodupKeys])

theorem dictLookup_upsert (k k' : Option String) (v : IndexEntry)
    (d : List (Option String × IndexEntry)) :
    dictLookup k' (dictUpsert k v d) =
      if k = k' then some v else dictLookup k' d := by
  induction d with
  | nil =>
    by_cases hk : k = k' <;> simp [dictUpsert, dictLookup, hk]
  | cons hd tl ih =>
    obtain ⟨k₁, v₁⟩ := hd
    unfold dictUpsert
    by_cases h1 : k₁ = k
    · subst h1
      rw [if_pos rfl]
      by_cases h2 : k₁ = k'
      · subst h2
        simp [dictLookup]
      · simp [dictLookup, h2]
    · rw [if_neg h1]
      by_cases h2 : k₁ = k'
      · subst h2
        have h1' : k ≠ k₁ := fun he => h1 he.symm
        simp [dictLookup, h1']
      · simp [dictLookup, h2, ih]

theorem loadIndexAux_writeback (d acc : List (Option String × IndexEntry)) :
    loadIndexAux acc (d.map (fun kv => IndexLine.entry kv.2)) = applyEntries acc d := by
  induction d generalizing acc with
  | nil => rfl
  | cons hd tl ih => exact ih (dictUpsert hd.2.evidence_id hd.2 acc)

theorem dictUpsert_cons (K : Option String) (V : IndexEntry) (k : Option String)
    (e : IndexEntry) (acc : List (Option String × IndexEntry)) :
    dictUpsert K V ((k, e) :: acc) =
      if k = K then (K, V) :: acc else (k, e) :: dictUpsert K V acc := rfl

theorem applyEntries_cons_of_fresh (k : Option String) (e : IndexEntry)
    (acc d : List (Option String × IndexEntry))
    (h : ∀ kv ∈ d, kv.2.evidence_id ≠ k) :
    applyEntries ((k, e) :: acc) d = (k, e) :: applyEntries acc d := by
  induction d generalizing acc with
  | nil => rfl
  | cons hd tl ih =>
    unfold applyEntries
    simp only [List.foldl_cons]
    have hne : hd.2.evidence_id ≠ k := h hd (List.mem_cons_self _ _)
    have hstep : dictUpsert hd.2.evidence_id hd.2 ((k, e) :: acc) =
        (k, e) :: dictUpsert hd.2.evidence_id hd.2 acc := by
      rw [dictUpsert_cons, if_neg (fun he => hne he.symm)]
    rw [hstep]
    exact ih (dictUpsert hd.2.evidence_id hd.2 acc)
      (fun kv hkv => h kv (List.mem_cons_of_mem _ hkv))

theorem applyEntries_self (d : List (Option String × IndexEntry))
    (hKC : KeysConsistent d) (hNK : NodupKeys d) : applyEntries [] d = d := by
  induction d with
  | nil => rfl
  | cons hd tl ih =>
    obtain ⟨k, e⟩ := hd
    have hk : k = e.evidence_id := hKC (k, e) (List.mem_cons_self _ _)
    unfold NodupKeys at hNK
    simp only [List.map_cons, List.nodup_cons] at hNK
    obtain ⟨hknotin, hnd⟩ := hNK
    unfold applyEntries
    simp only [List.foldl_cons]
    have hbase : dictUpsert e.evidence_id e ([] :
        List (Option String × IndexEntry)) = [(k, e)] := by
      rw [← hk]; rfl
    rw [hbase]
    have hfresh : ∀ kv ∈ tl, kv.2.evidence_id ≠ k := by
      intro kv hkv he
      apply hknotin
      have h1 : kv.1 = k := by rw [hKC kv (List.mem_cons_of_mem _ hkv), he]
      exact h1 ▸ List.mem_map_of_mem Prod.fst hkv
    have hshift := applyEntries_cons_of_fresh k e [] tl hfresh
    unfold applyEntries at hshift
    rw [hshift]
    have hih := ih (fun kv hkv => hKC kv (List.mem_cons_of_mem _ hkv)) hnd
    unfold applyEntries at hih
    rw [hih]

theorem loadIndex_update (index_file : List IndexLine) (evidence_id source_kind : String)
    (cache_metadata_path cache_raw_path : String) (page_title : Option String)
    (page_id revision_id : Option Nat) (sha256 endpoint : Option String)
    (params : Option (List (String × String))) :
    loadIndex (update_evidence_index index_file evidence_id source_kind
        cache_metadata_path cache_raw_path page_title page_id revision_id sha256
        endpoint params) =
      dictUpsert (some evidence_id)
        (mkIndexEntry evidence_id source_kind cache_metadata_path cache_raw_path
          page_title page_id revision_id sha256 endpoint params)
        (loadIndex index_file) := by
  obtain ⟨hKC, hNK⟩ := loadIndex_invariants index_file
  have hKC2 := dictUpsert_keysConsistent (some evidence_id)
    (mkIndexEntry evidence_id source_kind cache_metadata_path cache_raw_path
      page_title page_id revision_id sha256 endpoint params) _ hKC (by rfl)
  have hNK2 := dictUpsert_nodupKeys (some evidence_id)
    (mkIndexEntry evidence_id source_kind cache_metadata_path cache_raw_path
      page_title page_id revision_id sha256 endpoint params) _ hNK
  unfold update_evidence_index
  dsimp only
  unfold loadIndex
  rw [loadIndexAux_writeback]
  exact applyEntries_self _ hKC2 hNK2

theorem entriesFor_writeback (id : String) (d : List (Option String × IndexEntry))
    (hKC : KeysConsistent d) :
    entriesFor id (d.map (fun kv => IndexLine.entry kv.2)) =
      (d.filter (fun kv => kv.1 = some id)).map Prod.snd := by
  induction d with
  | nil => rfl
  | cons hd tl ih =>
    obtain ⟨k, e⟩ := hd
    have hk : k = e.evidence_id := hKC (k, e) (List.mem_cons_self _ _)
    have ihtl := ih (fun kv hkv => hKC kv (List.mem_cons_of_mem _ hkv))
    unfold entriesFor at ihtl ⊢
    subst hk
    by_cases h : e.evidence_id = some id
    · simp [List.filterMap_cons, List.filter_cons, h, ihtl]
    · simp [List.filterMap_cons, List.filter_cons, h, ihtl]

theorem filter_key_dictUpsert (k : Option String) (v : IndexEntry)
    (d : List (Option String × IndexEntry)) (hNK : NodupKeys d) :
    (dictUpsert k v d).filter (fun kv => kv.1 = k) = [(k, v)] := by
  induction d with
  | nil => simp [dictUpsert]
  | cons hd tl ih =>
    obtain ⟨k₁, v₁⟩ := hd
    unfold NodupKeys at hNK
    simp only [List.map_cons, List.nodup_cons] at hNK
    obtain ⟨hnotin, hnd⟩ := hNK
    rw [dictUpsert_cons]
    by_cases h : k₁ = k
    · subst h
      rw [if_pos rfl]
      have hnil : tl.filter (fun kv => kv.1 = k₁) = [] := by
        rw [List.filter_eq_nil_iff]
        intro kv hkv
        simp only [decide_eq_true_eq]
        intro he
        exact hnotin (he ▸ List.mem_map_of_mem Prod.fst hkv)
      simp [List.filter_cons, hnil]
    · rw [if_neg h]
      simp only [List.filter_cons]
      rw [if_neg (by simp [h])]
      exact ih hnd

/-- Claim C9: `update_evidence_index` is an idempotent last-write-wins
upsert: after two calls with the same evidence id and different incidental
fields, the index holds exactly one entry for that id, carrying the second
call's fields; lookups for every other evidence id are unchanged; and a
malformed line in the existing file is skipped without aborting and without
affecting any other entry. -/
theorem spec_c9_index_upsert_idempotent (index_file : List IndexLine)
    (evidence_id : String)
    (sk₁ mp₁ rp₁ : String) (pt₁ : Option String) (pid₁ rid₁ : Option Nat)
    (sh₁ ep₁ : Option String) (pr₁ : Option (List (String × String)))
    (sk₂ mp₂ rp₂ : String) (pt₂ : Option String) (pid₂ rid₂ : Option Nat)
    (sh₂ ep₂ : Option String) (pr₂ : Option (List (String × String))) :
    entriesFor evidence_id
        (update_evidence_index
          (update_evidence_index index_file evidence_id sk₁ mp₁ rp₁ pt₁ pid₁ rid₁
            sh₁ ep₁ pr₁)
          evidence_id sk₂ mp₂ rp₂ pt₂ pid₂ rid₂ sh₂ ep₂ pr₂) =
      [mkIndexEntry evidence_id sk₂ mp₂ rp₂ pt₂ pid₂ rid₂ sh₂ ep₂ pr₂] ∧
    (∀ k, k ≠ some evidence_id →
      dictLookup k (loadIndex (update_evidence_index
          (update_evidence_index index_file evidence_id sk₁ mp₁ rp₁ pt₁ pid₁ rid₁
            sh₁ ep₁ pr₁)
          evidence_id sk₂ mp₂ rp₂ pt₂ pid₂ rid₂ sh₂ ep₂ pr₂)) =
        dictLookup k (loadIndex index_file)) ∧
    (∀ raw, update_evidence_index (IndexLine.malformed raw :: index_file) evidence_id
        sk₂ mp₂ rp₂ pt₂ pid₂ rid₂ sh₂ ep₂ pr₂ =
      update_evidence_index index_file evidence_id sk₂ mp₂ rp₂ pt₂ pid₂ rid₂
        sh₂ ep₂ pr₂) := by
  have hinv₁ := loadIndex_invariants (update_evidence_index index_file evidence_id
    sk₁ mp₁ rp₁ pt₁ pid₁ rid₁ sh₁ ep₁ pr₁)
  refine ⟨?_, ?_, fun raw => rfl⟩
  · have hKC2 := dictUpsert_keysConsistent (some evidence_id)
      (mkIndexEntry evidence_id sk₂ mp₂ rp₂ pt₂ pid₂ rid₂ sh₂ ep₂ pr₂) _
      hinv₁.1 (by rfl)
    have hwrite := entriesFor_writeback evidence_id
      (dictUpsert (some evidence_id)
        (mkIndexEntry evidence_id sk₂ mp₂ rp₂ pt₂ pid₂ rid₂ sh₂ ep₂ pr₂)
        (loadIndex (update_evidence_index index_file evidence_id sk₁ mp₁ rp₁ pt₁
          pid₁ rid₁ sh₁ ep₁ pr₁))) hKC2
    have hfilter := filter_key_dictUpsert (some evidence_id)
      (mkIndexEntry evidence_id sk₂ mp₂ rp₂ pt₂ pid₂ rid₂ sh₂ ep₂ pr₂)
      (loadIndex (update_evidence_index index_file evidence_id sk₁ mp₁ rp₁ pt₁
        pid₁ rid₁ sh₁ ep₁ pr₁)) hinv₁.2
    show entriesFor evidence_id
        ((dictUpsert (some evidence_id)
          (mkIndexEntry evidence_id sk₂ mp₂ rp₂ pt₂ pid₂ rid₂ sh₂ ep₂ pr₂)
          (loadIndex (update_evidence_index index_file evidence_id sk₁ mp₁ rp₁
            pt₁ pid₁ rid₁ sh₁ ep₁ pr₁))).map (fun kv => IndexLine.entry kv.2)) =
      [mkIndexEntry evidence_id sk₂ mp₂ rp₂ pt₂ pid₂ rid₂ sh₂ ep₂ pr₂]
    rw [hwrite, hfilter]
    rfl
  · intro k hk
    rw [loadIndex_update, loadIndex_update, dictLookup_upsert, dictLookup_upsert]
    rw [if_neg (fun he => hk he.symm), if_neg (fun he => hk he.symm)]

/-- Claim C9 witness: a concrete file with one other entry and one malformed
line, upserted twice for "ev-a" with different incidental fields. -/
theorem spec_c9_witness :
    entriesFor "ev-a"
        (update_evidence_index
          (update_evidence_index
            [IndexLine.malformed "not json",
             IndexLine.entry (mkIndexEntry "ev-b" "mediawiki" "m.json" "r.json"
               (some "B") (some 2) (some 20) none none none)]
            "ev-a" "mediawiki" "m1.json" "r1.json" (some "A") (some 1) (some 10)
            none none none)
          "ev-a" "dip" "m2.json" "r2.json" (some "A2") (some 1) (some 11)
          (some "hash") none none) =
      [mkIndexEntry "ev-a" "dip" "m2.json" "r2.json" (some "A2") (some 1) (some 11)
        (some "hash") none none] ∧
    dictLookup (some "ev-b")
        (loadIndex (update_evidence_index
          (update_evidence_index
            [IndexLine.malformed "not json",
             IndexLine.entry (mkIndexEntry "ev-b" "mediawiki" "m.json" "r.json"
               (some "B") (some 2) (some 20) none none none)]
            "ev-a" "mediawiki" "m1.json" "r1.json" (some "A") (some 1) (some 10)
            none none none)
          "ev-a" "dip" "m2.json" "r2.json" (some "A2") (some 1) (some 11)
          (some "hash") none none)) =
      dictLookup (some "ev-b")
        (loadIndex [IndexLine.malformed "not json",
          IndexLine.entry (mkIndexEntry "ev-b" "mediawiki" "m.json" "r.json"
            (some "B") (some 2) (some 20) none none none)]) ∧
    update_evidence_index
        (IndexLine.malformed "junk" ::
          [IndexLine.malformed "not json",
           IndexLine.entry (mkIndexEntry "ev-b" "mediawiki" "m.json" "r.json"
             (some "B") (some 2) (some 20) none none none)])
        "ev-a" "dip" "m2.json" "r2.json" (some "A2") (some 1) (some 11)
        (some "hash") none none =
      update_evidence_index
        [IndexLine.malformed "not json",
         IndexLine.entry (mkIndexEntry "ev-b" "mediawiki" "m.json" "r.json"
           (some "B") (some 2) (some 20) none none none)]
        "ev-a" "dip" "m2.json" "r2.json" (some "A2") (some 1) (some 11)
        (some "hash") none none :=
  ⟨(spec_c9_index_upsert_idempotent _ "ev-a" "mediawiki" "m1.json" "r1.json"
      (some "A") (some 1) (some 10) none none none "dip" "m2.json" "r2.json"
      (some "A2") (some 1) (some 11) (some "hash") none none).1,
   (spec_c9_index_upsert_idempotent _ "ev-a" "mediawiki" "m1.json" "r1.json"
      (some "A") (some 1) (some 10) none none none "dip" "m2.json" "r2.json"
      (some "A2") (some 1) (some 11) (some "hash") none none).2.1
      (some "ev-b") (by decide),
   (spec_c9_index_upsert_idempotent _ "ev-a" "mediawiki" "m1.json" "r1.json"
      (some "A") (some 1) (some 10) none none none "dip" "m2.json" "r2.json"
      (some "A2") (some 1) (some 11) (some "hash") none none).2.2 "junk"⟩
